import Mathlib

/-!
Shallow embedding of the layer primitives in `modules.py` of the dc_tts
repository (embed, normalize, highwaynet, conv1d, conv1d_transpose), with
theorems settling the specification claims about them.

Modelling conventions:
* A single batch element is modelled; tensors of shape [N, T, C] become
  `Tensor3` (time length, channel count, and a value function).
* Floating point is modelled by the real numbers; `tf.rsqrt` becomes
  `fun x => (Real.sqrt x)⁻¹`.
* Learned parameters created by `tf.get_variable` / `tf.Variable` /
  `tf.layers.dense` inside the functions are explicit arguments (the
  functions are pure in their parameters).
* The randomness of `tf.layers.dropout` is an explicit Boolean keep-mask
  argument; with `rate = 0` or `training = false` dropout is the identity,
  exactly as in TensorFlow.
-/

namespace DcTTS

noncomputable section

/-- A single batch element of a rank-3 tensor [N, T, C]: time length,
channel count, and values (indices beyond the bounds are irrelevant). -/
structure Tensor3 where
  len : ℕ
  ch : ℕ
  val : ℕ → ℕ → ℝ

/-- A single batch element of a rank-4 tensor [N, H, W, C]. -/
structure Tensor4 where
  hdim : ℕ
  wdim : ℕ
  ch : ℕ
  val : ℕ → ℕ → ℕ → ℝ

/-- Python str.lower for ASCII strings. -/
def pyLower (s : String) : String :=
  String.mk (s.data.map Char.toLower)

/-- tf.rsqrt. -/
def rsqrt (x : ℝ) : ℝ := (Real.sqrt x)⁻¹

/-- tf.nn.relu. -/
def relu (x : ℝ) : ℝ := max x 0

/-- tf.nn.sigmoid. -/
def sigmoid (x : ℝ) : ℝ := 1 / (1 + Real.exp (-x))

/-- tf.abs on a scalar. -/
def tfAbs (x : ℝ) : ℝ := |x|

/-- tf.sign on a scalar. -/
def tfSign (x : ℝ) : ℝ := if x < 0 then -1 else if x = 0 then 0 else 1

/-- Kind of failure `embed` can surface (out-of-range lookup ids). -/
inductive EmbedErr where
  | indexError
deriving DecidableEq

/-- The effective lookup table built at modules.py:38-40: when `zero_pad`
is set the table is `tf.concat((tf.zeros([1, num_units]), lookup_table[1:, :]), 0)`,
i.e. row 0 is a fresh zero row and rows 1.. are the stored rows. -/
def effectiveTable (zero_pad : Bool) (lookup_table : ℕ → ℕ → ℝ) : ℕ → ℕ → ℝ :=
  fun i j => if zero_pad ∧ i = 0 then 0 else lookup_table i j

/-- modules.py:15-44, `embed`. The stored `lookup_table` variable is the
explicit argument; ids are a flat list; `tf.nn.embedding_lookup` fails with
an index error when some id is outside [0, vocab_size). -/
def embed (inputs : List ℕ) (vocab_size num_units : ℕ) (zero_pad : Bool)
    (lookup_table : ℕ → ℕ → ℝ) : Except EmbedErr (List (List ℝ)) :=
  if ∀ i ∈ inputs, i < vocab_size then
    Except.ok (inputs.map fun i =>
      (List.range num_units).map (effectiveTable zero_pad lookup_table i))
  else Except.error EmbedErr.indexError

/-- Mean over the channel (last) axis at time `t`
(tf.nn.moments with axis -1, modules.py:103). -/
def lnMean (x : Tensor3) (t : ℕ) : ℝ :=
  (∑ c ∈ Finset.range x.ch, x.val t c) / x.ch

/-- Population variance over the channel axis at time `t`. -/
def lnVar (x : Tensor3) (t : ℕ) : ℝ :=
  (∑ c ∈ Finset.range x.ch, (x.val t c - lnMean x t) ^ 2) / x.ch

/-- Mean over the time axis (axis 1) for channel `c`
(tf.nn.moments with axis 1, the `ins` mode). -/
def insMean (x : Tensor3) (c : ℕ) : ℝ :=
  (∑ t ∈ Finset.range x.len, x.val t c) / x.len

/-- Population variance over the time axis for channel `c`. -/
def insVar (x : Tensor3) (c : ℕ) : ℝ :=
  (∑ t ∈ Finset.range x.len, (x.val t c - insMean x c) ^ 2) / x.len

/-- modules.py:106 for `type == "ln"`:
`normalized = (inputs - mean) * tf.rsqrt(variance + epsilon)` with the
moments taken over the channel axis. -/
def lnNormalizedPre (epsilon : ℝ) (x : Tensor3) : Tensor3 :=
  ⟨x.len, x.ch, fun t c => (x.val t c - lnMean x t) * rsqrt (lnVar x t + epsilon)⟩

/-- modules.py:106 for `type == "ins"`: same, moments over the time axis. -/
def insNormalizedPre (epsilon : ℝ) (x : Tensor3) : Tensor3 :=
  ⟨x.len, x.ch, fun t c => (x.val t c - insMean x c) * rsqrt (insVar x c + epsilon)⟩

/-- modules.py:108: `masks = tf.sign(tf.abs(tf.reduce_sum(inputs, -1, keep_dims=True)))`,
the per-position mask (0 at a position whose channels sum to 0, else 1). -/
def maskVal (x : Tensor3) (t : ℕ) : ℝ :=
  tfSign (tfAbs (∑ c ∈ Finset.range x.ch, x.val t c))

/-- modules.py:107-109: when `masking`, multiply the normalized tensor by the
per-position mask (broadcast over channels). -/
def applyMask (masking : Bool) (x normalized : Tensor3) : Tensor3 :=
  if masking then
    ⟨normalized.len, normalized.ch, fun t c => normalized.val t c * maskVal x t⟩
  else normalized

/-- tf.layers.batch_normalization as called at modules.py:83/93, for a single
batch element: moments are over every axis but the channel axis (here: time)
in training mode, and the stored moving statistics in inference mode;
TensorFlow's default epsilon is 1e-3.  Its own scale/shift variables are the
`gamma`/`beta` arguments. -/
def batchNorm (training : Bool) (gamma beta movMean movVar : ℕ → ℝ)
    (x : Tensor3) : Tensor3 :=
  ⟨x.len, x.ch, fun t c =>
    if training then
      gamma c * ((x.val t c - insMean x c) * rsqrt (insVar x c + 1 / 1000)) + beta c
    else
      gamma c * ((x.val t c - movMean c) * rsqrt (movVar c + 1 / 1000)) + beta c⟩

/-- modules.py:47-114, `normalize`. The `type` argument is `Option String`
(Python `None` or a string); dispatch is `if type == "bn"`, then
`elif type in ("ln", "ins")`, else identity. The `beta`/`gamma` variables of
modules.py:104-105 (and the internal parameters of batch normalization) are
explicit arguments. -/
def normalize (inputs : Tensor3) (type : Option String) (epsilon : ℝ)
    (training masking : Bool) (gamma beta movMean movVar : ℕ → ℝ) : Tensor3 :=
  if type = some "bn" then
    batchNorm training gamma beta movMean movVar inputs
  else if type = some "ln" ∨ type = some "ins" then
    let normalized :=
      if type = some "ln" then lnNormalizedPre epsilon inputs
      else insNormalizedPre epsilon inputs
    let masked := applyMask masking inputs normalized
    ⟨inputs.len, inputs.ch, fun t c => gamma c * masked.val t c + beta c⟩
  else inputs

/-- tf.layers.dense with activation `act` (modules.py:135-137): an affine map
over the channel axis followed by the pointwise activation. -/
def tfDense (units : ℕ) (W : ℕ → ℕ → ℝ) (b : ℕ → ℝ) (act : ℝ → ℝ)
    (x : Tensor3) : Tensor3 :=
  ⟨x.len, units, fun t f => act ((∑ c ∈ Finset.range x.ch, x.val t c * W c f) + b f)⟩

/-- modules.py:138-139: `C = 1. - T; outputs = H * T + inputs * C`. -/
def highwayCombine (h t v : ℝ) : ℝ := h * t + v * (1 - t)

/-- modules.py:117-140, `highwaynet`. `if not num_units` treats both `None`
and `0` as unset (Python falsiness); the two dense layers' weights and biases
are explicit arguments. -/
def highwaynet (inputs : Tensor3) (num_units : Option ℕ)
    (W1 : ℕ → ℕ → ℝ) (b1 : ℕ → ℝ) (W2 : ℕ → ℕ → ℝ) (b2 : ℕ → ℝ) : Tensor3 :=
  let units := match num_units with
    | none => inputs.ch
    | some n => if n = 0 then inputs.ch else n
  let H := tfDense units W1 b1 relu inputs
  let T := tfDense units W2 b2 sigmoid inputs
  ⟨inputs.len, units, fun t f => highwayCombine (H.val t f) (T.val t f) (inputs.val t f)⟩

/-- tf.pad on the time axis with `l` zeros on the left and `r` on the right
(modules.py:173). -/
def padTime (l r : ℕ) (x : Tensor3) : Tensor3 :=
  ⟨l + x.len + r, x.ch, fun t c =>
    if t < l then 0 else if t - l < x.len then x.val (t - l) c else 0⟩

/-- Dilated 1-D convolution with VALID padding: output time `t` reads input
times `t + j*rate` for taps `j < size`; output length shrinks by
`(size-1)*rate`. Kernel `w` is indexed (tap, in-channel, out-channel). -/
def convValid (size rate filters : ℕ) (w : ℕ → ℕ → ℕ → ℝ) (use_bias : Bool)
    (bias : ℕ → ℝ) (x : Tensor3) : Tensor3 :=
  ⟨x.len - (size - 1) * rate, filters, fun t f =>
    (∑ j ∈ Finset.range size, ∑ c ∈ Finset.range x.ch,
      x.val (t + j * rate) c * w j c f) + if use_bias then bias f else 0⟩

/-- Dilated 1-D convolution with SAME padding (stride 1): TensorFlow pads a
total of `(size-1)*rate`, half (rounded down) on the left, and then convolves
VALID; output length equals input length. -/
def convSame (size rate filters : ℕ) (w : ℕ → ℕ → ℕ → ℝ) (use_bias : Bool)
    (bias : ℕ → ℝ) (x : Tensor3) : Tensor3 :=
  convValid size rate filters w use_bias bias
    (padTime ((size - 1) * rate / 2) ((size - 1) * rate - (size - 1) * rate / 2) x)

/-- tf.layers.conv1d as called at modules.py:183: padding is case-insensitive
("same" or "valid"; TensorFlow rejects anything else, which no call site here
produces — other strings are mapped to the VALID branch in this model). -/
def tfLayersConv1d (padding : String) (size rate filters : ℕ)
    (w : ℕ → ℕ → ℕ → ℝ) (use_bias : Bool) (bias : ℕ → ℝ) (x : Tensor3) : Tensor3 :=
  if pyLower padding = "same" then convSame size rate filters w use_bias bias x
  else convValid size rate filters w use_bias bias x

/-- Pointwise activation (modules.py:185-186). -/
def applyActivation (activation_fn : Option (ℝ → ℝ)) (x : Tensor3) : Tensor3 :=
  match activation_fn with
  | none => x
  | some g => ⟨x.len, x.ch, fun t c => g (x.val t c)⟩

/-- tf.layers.dropout (modules.py:188): identity when not training or when
the rate is 0; otherwise keep-mask units survive scaled by 1/(1-rate) and the
rest are zeroed.  The random draw is the explicit `keep` argument. -/
def dropout (rate : ℝ) (training : Bool) (keep : ℕ → ℕ → Bool)
    (x : Tensor3) : Tensor3 :=
  if training ∧ rate ≠ 0 then
    ⟨x.len, x.ch, fun t c => if keep t c then x.val t c / (1 - rate) else 0⟩
  else x

/-- modules.py:142-190, `conv1d`. `padding.lower() == "causal"` left-pads the
time axis with `(size - 1) * rate` zeros and switches the padding to
`"valid"`; `filters` defaults to the input channel count; then
tf.layers.conv1d, `normalize` with the given `norm_type` (its other arguments
at their defaults: epsilon 1e-8, masking off), the optional activation, and
dropout.  The convolution kernel/bias, normalization parameters and dropout
mask are explicit arguments. -/
def conv1d (inputs : Tensor3) (filters : Option ℕ) (size rate : ℕ)
    (padding : String) (dropout_rate : ℝ) (use_bias : Bool)
    (norm_type : Option String) (activation_fn : Option (ℝ → ℝ))
    (training : Bool) (w : ℕ → ℕ → ℕ → ℝ) (bias : ℕ → ℝ)
    (gamma beta movMean movVar : ℕ → ℝ) (keep : ℕ → ℕ → Bool) : Tensor3 :=
  let padded :=
    if pyLower padding = "causal" then padTime ((size - 1) * rate) 0 inputs
    else inputs
  let padding2 := if pyLower padding = "causal" then "valid" else padding
  let filt := match filters with
    | none => padded.ch
    | some n => n
  let tensor := tfLayersConv1d padding2 size rate filt w use_bias bias padded
  let tensor := normalize tensor norm_type (1 / 100000000) training false
    gamma beta movMean movVar
  let tensor := applyActivation activation_fn tensor
  dropout dropout_rate training keep tensor

/-- modules.py:208: `inputs = tf.expand_dims(inputs, 1)` — insert a singleton
spatial (height) dimension. -/
def expandDims1 (x : Tensor3) : Tensor4 :=
  ⟨1, x.len, x.ch, fun _ t c => x.val t c⟩

/-- modules.py:216: `tensor = tf.squeeze(tensor, 1)` — drop the singleton
height dimension. -/
def squeeze1 (x : Tensor4) : Tensor3 :=
  ⟨x.wdim, x.ch, fun t c => x.val 0 t c⟩

/-- tf.layers.conv2d_transpose as called at modules.py:209-215 (kernel
`(kh, kw)`, strides `(sh, sw)`). SAME padding: output spatial sizes are
input * stride, and output position `(i, j)` accumulates input `(p, q)` and
tap `(a, d)` whenever `i + padTop = p*sh + a` and `j + padLeft = q*sw + d`,
where the pads are half of `max(kernel - stride, 0)` (the pads of the
corresponding forward SAME convolution). VALID padding: output size
`(in - 1)*stride + kernel` with no pad offset. -/
def tfConv2dTranspose (padding : String) (kh kw sh sw filters : ℕ)
    (w : ℕ → ℕ → ℕ → ℕ → ℝ) (use_bias : Bool) (bias : ℕ → ℝ)
    (x : Tensor4) : Tensor4 :=
  if pyLower padding = "same" then
    ⟨x.hdim * sh, x.wdim * sw, filters, fun i j f =>
      (∑ p ∈ Finset.range x.hdim, ∑ q ∈ Finset.range x.wdim,
        ∑ a ∈ Finset.range kh, ∑ d ∈ Finset.range kw,
          ∑ c ∈ Finset.range x.ch,
            if i + (kh - sh) / 2 = p * sh + a ∧ j + (kw - sw) / 2 = q * sw + d
            then x.val p q c * w a d c f else 0)
        + if use_bias then bias f else 0⟩
  else
    ⟨(x.hdim - 1) * sh + kh, (x.wdim - 1) * sw + kw, filters, fun i j f =>
      (∑ p ∈ Finset.range x.hdim, ∑ q ∈ Finset.range x.wdim,
        ∑ a ∈ Finset.range kh, ∑ d ∈ Finset.range kw,
          ∑ c ∈ Finset.range x.ch,
            if i = p * sh + a ∧ j = q * sw + d
            then x.val p q c * w a d c f else 0)
        + if use_bias then bias f else 0⟩

/-- modules.py:192-223, `conv1d_transpose`. `filters` defaults to the input
channel count; the input gains a singleton spatial dimension, goes through a
transposed 2-D convolution with kernel `(1, size)` and strides `(1, stride)`,
loses the singleton dimension again, then `normalize`, optional activation,
and dropout as in `conv1d`. -/
def conv1d_transpose (inputs : Tensor3) (filters : Option ℕ)
    (size stride : ℕ) (padding : String) (dropout_rate : ℝ)
    (norm_type : Option String) (activation : Option (ℝ → ℝ))
    (training : Bool) (use_bias : Bool) (w : ℕ → ℕ → ℕ → ℕ → ℝ)
    (bias : ℕ → ℝ) (gamma beta movMean movVar : ℕ → ℝ)
    (keep : ℕ → ℕ → Bool) : Tensor3 :=
  let filt := match filters with
    | none => inputs.ch
    | some n => n
  let tensor := squeeze1
    (tfConv2dTranspose padding 1 size 1 stride filt w use_bias bias
      (expandDims1 inputs))
  let tensor := normalize tensor norm_type (1 / 100000000) training false
    gamma beta movMean movVar
  let tensor := applyActivation activation tensor
  dropout dropout_rate training keep tensor

end

/-! Helper lemmas shared by the claim theorems. -/

lemma normalize_not_recognized (inputs : Tensor3) (type : Option String)
    (epsilon : ℝ) (training masking : Bool) (gamma beta movMean movVar : ℕ → ℝ)
    (h1 : type ≠ some "bn") (h2 : type ≠ some "ln") (h3 : type ≠ some "ins") :
    normalize inputs type epsilon training masking gamma beta movMean movVar
      = inputs := by
  unfold normalize
  rw [if_neg h1, if_neg (not_or.mpr ⟨h2, h3⟩)]

lemma normalize_none (inputs : Tensor3) (epsilon : ℝ) (training masking : Bool)
    (gamma beta movMean movVar : ℕ → ℝ) :
    normalize inputs none epsilon training masking gamma beta movMean movVar
      = inputs :=
  normalize_not_recognized inputs none epsilon training masking gamma beta
    movMean movVar (by decide) (by decide) (by decide)

lemma normalize_len (inputs : Tensor3) (type : Option String) (epsilon : ℝ)
    (training masking : Bool) (gamma beta movMean movVar : ℕ → ℝ) :
    (normalize inputs type epsilon training masking gamma beta movMean movVar).len
      = inputs.len := by
  unfold normalize batchNorm
  split_ifs <;> rfl

lemma applyActivation_len (activation_fn : Option (ℝ → ℝ)) (x : Tensor3) :
    (applyActivation activation_fn x).len = x.len := by
  cases activation_fn <;> rfl

lemma dropout_len (rate : ℝ) (training : Bool) (keep : ℕ → ℕ → Bool)
    (x : Tensor3) : (dropout rate training keep x).len = x.len := by
  unfold dropout
  split_ifs <;> rfl

lemma applyActivation_val_congr (a : Option (ℝ → ℝ)) (x y : Tensor3) (u f : ℕ)
    (h : x.val u f = y.val u f) :
    (applyActivation a x).val u f = (applyActivation a y).val u f := by
  cases a with
  | none => exact h
  | some g => simp only [applyActivation]; rw [h]

lemma dropout_val_congr (rate : ℝ) (training : Bool) (keep : ℕ → ℕ → Bool)
    (x y : Tensor3) (u f : ℕ) (h : x.val u f = y.val u f) :
    (dropout rate training keep x).val u f
      = (dropout rate training keep y).val u f := by
  unfold dropout
  split_ifs with hc
  · show (if keep u f then x.val u f / (1 - rate) else 0)
      = (if keep u f then y.val u f / (1 - rate) else 0)
    rw [h]
  · exact h

lemma maskVal_eq_zero (x : Tensor3) (t : ℕ)
    (hsum : ∑ c ∈ Finset.range x.ch, x.val t c = 0) : maskVal x t = 0 := by
  simp [maskVal, tfSign, tfAbs, hsum]

lemma normalize_masked_val_eq_beta (inputs : Tensor3) (type : Option String)
    (epsilon : ℝ) (training : Bool) (gamma beta movMean movVar : ℕ → ℝ)
    (t : ℕ) (hty : type = some "ln" ∨ type = some "ins")
    (hsum : ∑ c ∈ Finset.range inputs.ch, inputs.val t c = 0) (c : ℕ) :
    (normalize inputs type epsilon training true gamma beta movMean
        movVar).val t c = beta c := by
  have hmask := maskVal_eq_zero inputs t hsum
  rcases hty with h | h <;> subst h <;>
    · unfold normalize
      rw [if_neg (by decide), if_pos (by decide)]
      simp [applyMask, hmask]

lemma conv1d_len_pipeline (inputs : Tensor3) (filters : Option ℕ)
    (size rate : ℕ) (padding : String) (dropout_rate : ℝ) (use_bias : Bool)
    (norm_type : Option String) (activation_fn : Option (ℝ → ℝ))
    (training : Bool) (w : ℕ → ℕ → ℕ → ℝ) (bias : ℕ → ℝ)
    (gamma beta movMean movVar : ℕ → ℝ) (keep : ℕ → ℕ → Bool) :
    (conv1d inputs filters size rate padding dropout_rate use_bias norm_type
        activation_fn training w bias gamma beta movMean movVar keep).len
      = (tfLayersConv1d (if pyLower padding = "causal" then "valid" else padding)
          size rate 0 w use_bias bias
          (if pyLower padding = "causal"
            then padTime ((size - 1) * rate) 0 inputs else inputs)).len := by
  unfold conv1d
  rw [dropout_len, applyActivation_len, normalize_len]
  unfold tfLayersConv1d
  split_ifs <;> rfl

lemma conv1d_causal_eq (inputs : Tensor3) (filters : Option ℕ)
    (size rate : ℕ) (dropout_rate : ℝ) (use_bias : Bool)
    (activation_fn : Option (ℝ → ℝ)) (training : Bool)
    (w : ℕ → ℕ → ℕ → ℝ) (bias : ℕ → ℝ) (gamma beta movMean movVar : ℕ → ℝ)
    (keep : ℕ → ℕ → Bool) :
    conv1d inputs filters size rate "causal" dropout_rate use_bias none
        activation_fn training w bias gamma beta movMean movVar keep
      = dropout dropout_rate training keep (applyActivation activation_fn
          (convValid size rate
            (match filters with | none => inputs.ch | some n => n)
            w use_bias bias (padTime ((size - 1) * rate) 0 inputs))) := by
  have hc := eq_true (show pyLower "causal" = "causal" by decide)
  have hv := eq_false (show ¬ pyLower "valid" = "same" by decide)
  unfold conv1d tfLayersConv1d
  simp only [hc, hv, if_true, if_false, normalize_none]
  cases filters <;> rfl

lemma conv1d_valid_eq (inputs : Tensor3) (filters : Option ℕ)
    (size rate : ℕ) (dropout_rate : ℝ) (use_bias : Bool)
    (activation_fn : Option (ℝ → ℝ)) (training : Bool)
    (w : ℕ → ℕ → ℕ → ℝ) (bias : ℕ → ℝ) (gamma beta movMean movVar : ℕ → ℝ)
    (keep : ℕ → ℕ → Bool) :
    conv1d inputs filters size rate "valid" dropout_rate use_bias none
        activation_fn training w bias gamma beta movMean movVar keep
      = dropout dropout_rate training keep (applyActivation activation_fn
          (convValid size rate
            (match filters with | none => inputs.ch | some n => n)
            w use_bias bias inputs)) := by
  have h1 := eq_false (show ¬ pyLower "valid" = "causal" by decide)
  have h2 := eq_false (show ¬ pyLower "valid" = "same" by decide)
  unfold conv1d tfLayersConv1d
  simp only [h1, h2, if_false, normalize_none]

lemma conv1d_transpose_same_len (inputs : Tensor3) (filters : Option ℕ)
    (size stride : ℕ) (dropout_rate : ℝ) (norm_type : Option String)
    (activation : Option (ℝ → ℝ)) (training use_bias : Bool)
    (w : ℕ → ℕ → ℕ → ℕ → ℝ) (bias : ℕ → ℝ)
    (gamma beta movMean movVar : ℕ → ℝ) (keep : ℕ → ℕ → Bool) :
    (conv1d_transpose inputs filters size stride "same" dropout_rate
        norm_type activation training use_bias w bias gamma beta movMean
        movVar keep).len = inputs.len * stride := by
  have hs := eq_true (show pyLower "same" = "same" by decide)
  unfold conv1d_transpose
  rw [dropout_len, applyActivation_len, normalize_len]
  simp only [squeeze1, tfConv2dTranspose, expandDims1, hs, if_true]

lemma sum_sub_lnMean (x : Tensor3) (t : ℕ) (hch : 0 < x.ch) :
    ∑ c ∈ Finset.range x.ch, (x.val t c - lnMean x t) = 0 := by
  have hch' : (x.ch : ℝ) ≠ 0 := Nat.cast_ne_zero.mpr hch.ne'
  rw [Finset.sum_sub_distrib, Finset.sum_const, Finset.card_range,
    nsmul_eq_mul, lnMean]
  field_simp

lemma lnNormalizedPre_mean (epsilon : ℝ) (x : Tensor3) (t : ℕ)
    (hch : 0 < x.ch) : lnMean (lnNormalizedPre epsilon x) t = 0 := by
  unfold lnMean
  simp only [lnNormalizedPre]
  rw [← Finset.sum_mul, sum_sub_lnMean x t hch, zero_mul, zero_div]

lemma lnVar_nonneg (x : Tensor3) (t : ℕ) : 0 ≤ lnVar x t := by
  unfold lnVar
  exact div_nonneg (Finset.sum_nonneg fun c _ => sq_nonneg _)
    (Nat.cast_nonneg _)

lemma lnNormalizedPre_var (epsilon : ℝ) (x : Tensor3) (t : ℕ)
    (hch : 0 < x.ch) (heps : 0 < epsilon) :
    lnVar (lnNormalizedPre epsilon x) t
      = lnVar x t / (lnVar x t + epsilon) := by
  have hch' : (x.ch : ℝ) ≠ 0 := Nat.cast_ne_zero.mpr hch.ne'
  have hve : (0 : ℝ) < lnVar x t + epsilon := by
    have := lnVar_nonneg x t
    linarith
  have hr : rsqrt (lnVar x t + epsilon) ^ 2 = (lnVar x t + epsilon)⁻¹ := by
    rw [rsqrt, inv_pow, Real.sq_sqrt hve.le]
  have hsum : ∑ c ∈ Finset.range x.ch, (x.val t c - lnMean x t) ^ 2
      = lnVar x t * x.ch := by
    unfold lnVar
    field_simp
  show (∑ c ∈ Finset.range (lnNormalizedPre epsilon x).ch,
      ((lnNormalizedPre epsilon x).val t c
        - lnMean (lnNormalizedPre epsilon x) t) ^ 2)
      / ((lnNormalizedPre epsilon x).ch : ℝ)
    = lnVar x t / (lnVar x t + epsilon)
  rw [lnNormalizedPre_mean epsilon x t hch]
  simp only [lnNormalizedPre, sub_zero, mul_pow, hr]
  rw [← Finset.sum_mul, hsum]
  field_simp
  ring

lemma normalize_ln_no_masking (inputs : Tensor3) (epsilon : ℝ)
    (training : Bool) (gamma beta movMean movVar : ℕ → ℝ) :
    normalize inputs (some "ln") epsilon training false gamma beta movMean
        movVar
      = ⟨inputs.len, inputs.ch, fun t c =>
          gamma c * (lnNormalizedPre epsilon inputs).val t c + beta c⟩ := by
  have h1 := eq_false (show ¬ (some "ln" : Option String) = some "bn"
    by decide)
  have h2 := eq_true (show ((some "ln" : Option String) = some "ln"
    ∨ (some "ln" : Option String) = some "ins") by decide)
  have h3 := eq_true (show (some "ln" : Option String) = some "ln" from rfl)
  unfold normalize applyMask
  simp only [h1, h2, h3, true_or, if_true, if_false, Bool.false_eq_true]

/-! Theorems for the claims. -/

/-- C8: for every `type` argument that is not one of `"bn"`, `"ln"`, `"ins"`
(including `None` and misspelled strings), `normalize` returns its input
tensor unchanged and signals no error. -/
theorem C8_normalize_unrecognized_identity (inputs : Tensor3)
    (type : Option String) (epsilon : ℝ) (training masking : Bool)
    (gamma beta movMean movVar : ℕ → ℝ)
    (h1 : type ≠ some "bn") (h2 : type ≠ some "ln") (h3 : type ≠ some "ins") :
    normalize inputs type epsilon training masking gamma beta movMean movVar
      = inputs :=
  normalize_not_recognized inputs type epsilon training masking gamma beta
    movMean movVar h1 h2 h3

/-- Witness for C8 at `type = some "batch"` (a misspelling) and `type = none`. -/
theorem C8_normalize_unrecognized_identity_witness :
    normalize ⟨1, 1, fun _ _ => 5⟩ (some "batch") 1 true false
        (fun _ => 1) (fun _ => 0) (fun _ => 0) (fun _ => 1)
      = ⟨1, 1, fun _ _ => 5⟩
    ∧ normalize ⟨1, 1, fun _ _ => 5⟩ none 1 true false
        (fun _ => 1) (fun _ => 0) (fun _ => 0) (fun _ => 1)
      = ⟨1, 1, fun _ _ => 5⟩ :=
  ⟨C8_normalize_unrecognized_identity _ _ _ _ _ _ _ _ _
      (by decide) (by decide) (by decide),
    C8_normalize_unrecognized_identity _ _ _ _ _ _ _ _ _
      (by decide) (by decide) (by decide)⟩

/-- C2: for `vocabSize ≥ 1` and `numUnits ≥ 1`, `embed [0]` with zero-padding
on returns the all-zero vector of length `numUnits` whatever the stored
lookup table holds; the effective row 0 is a fresh zero row while rows from 1
on are the stored rows. -/
theorem C2_embed_zero_pad (vocab_size num_units : ℕ)
    (lookup_table : ℕ → ℕ → ℝ)
    (h1 : 1 ≤ vocab_size) (h2 : 1 ≤ num_units) :
    embed [0] vocab_size num_units true lookup_table
        = Except.ok [List.replicate num_units (0 : ℝ)]
      ∧ (∀ j, effectiveTable true lookup_table 0 j = 0)
      ∧ (∀ i, 1 ≤ i → ∀ j, effectiveTable true lookup_table i j
          = lookup_table i j) := by
  refine ⟨?_, fun j => by simp [effectiveTable], fun i hi j => ?_⟩
  · have hall : ∀ i ∈ [0], i < vocab_size := by
      intro i hi
      simp only [List.mem_singleton] at hi
      omega
    have hrow : effectiveTable true lookup_table 0 = fun _ => (0 : ℝ) := by
      funext j
      simp [effectiveTable]
    simp [embed, hall, hrow, List.map_const', List.length_range]
  · have hne : i ≠ 0 := by omega
    simp [effectiveTable, hne]

/-- Witness for C2 at `vocabSize = 3`, `numUnits = 2` and a nonzero stored
table. -/
theorem C2_embed_zero_pad_witness :
    embed [0] 3 2 true (fun i j => i + j + 1)
        = Except.ok [List.replicate 2 (0 : ℝ)]
      ∧ effectiveTable true (fun i j => (i : ℝ) + j + 1) 0 0 = 0
      ∧ effectiveTable true (fun i j => (i : ℝ) + j + 1) 1 1
          = ((1 : ℕ) : ℝ) + (1 : ℕ) + 1 := by
  have h := C2_embed_zero_pad 3 2 (fun i j => (i : ℝ) + j + 1)
    (by norm_num) (by norm_num)
  exact ⟨h.1, h.2.1 0, h.2.2 1 le_rfl 1⟩

/-- C9: `embed` fails with the index-error kind exactly when some id is
outside `[0, vocabSize)`; on all-in-range ids it succeeds with one row per
id, each of length `numUnits`. -/
theorem C9_embed_index_error (inputs : List ℕ) (vocab_size num_units : ℕ)
    (zero_pad : Bool) (lookup_table : ℕ → ℕ → ℝ) :
    (embed inputs vocab_size num_units zero_pad lookup_table
        = Except.error EmbedErr.indexError ↔ ∃ i ∈ inputs, vocab_size ≤ i)
      ∧ ∀ out,
          embed inputs vocab_size num_units zero_pad lookup_table
              = Except.ok out →
            out.length = inputs.length ∧ ∀ r ∈ out, r.length = num_units := by
  by_cases h : ∀ i ∈ inputs, i < vocab_size
  · refine ⟨⟨fun hcon => ?_, fun hex => ?_⟩, fun out hout => ?_⟩
    · rw [embed, if_pos h] at hcon
      exact absurd hcon (by simp)
    · obtain ⟨i, hi, hge⟩ := hex
      exact absurd (h i hi) (by omega)
    · rw [embed, if_pos h, Except.ok.injEq] at hout
      subst hout
      refine ⟨by simp, fun r hr => ?_⟩
      simp only [List.mem_map] at hr
      obtain ⟨i, _, rfl⟩ := hr
      simp
  · refine ⟨⟨fun _ => ?_, fun _ => ?_⟩, fun out hout => ?_⟩
    · push_neg at h
      obtain ⟨i, hi, hge⟩ := h
      exact ⟨i, hi, by omega⟩
    · rw [embed, if_neg h]
    · rw [embed, if_neg h] at hout
      exact absurd hout (by simp)

/-- Witness for C9: id 3 with vocabulary size 2 fails with the index error;
id 1 succeeds with one row of length 4. -/
theorem C9_embed_index_error_witness :
    embed [3] 2 4 false (fun _ _ => 0) = Except.error EmbedErr.indexError
    ∧ [[(0 : ℝ), 0, 0, 0]].length = [1].length
    ∧ [(0 : ℝ), 0, 0, 0].length = 4 := by
  have hok : embed [1] 2 4 false (fun _ _ => (0 : ℝ))
      = Except.ok [[0, 0, 0, 0]] := by
    simp [embed, effectiveTable, List.range_succ]
  have hshape := (C9_embed_index_error [1] 2 4 false (fun _ _ => 0)).2 _ hok
  exact ⟨(C9_embed_index_error [3] 2 4 false (fun _ _ => 0)).1.mpr
      ⟨3, by simp, by norm_num⟩,
    by simp [hshape.1],
    hshape.2 [(0 : ℝ), 0, 0, 0] (by simp)⟩

/-- C7: `highwaynet` returns exactly
`relu(dense1 x) * sigmoid(dense2 x) + x * (1 - sigmoid(dense2 x))` at each
position; when the gate of the combination equals 1 the output is the
transform branch, and when it equals 0 the output is the input unchanged. -/
theorem C7_highway_gate_equation (inputs : Tensor3) (num_units : Option ℕ)
    (W1 : ℕ → ℕ → ℝ) (b1 : ℕ → ℝ) (W2 : ℕ → ℕ → ℝ) (b2 : ℕ → ℝ) (t f : ℕ) :
    (highwaynet inputs num_units W1 b1 W2 b2).val t f
        = relu ((∑ c ∈ Finset.range inputs.ch, inputs.val t c * W1 c f) + b1 f)
            * sigmoid ((∑ c ∈ Finset.range inputs.ch, inputs.val t c * W2 c f)
                + b2 f)
          + inputs.val t f
            * (1 - sigmoid ((∑ c ∈ Finset.range inputs.ch,
                inputs.val t c * W2 c f) + b2 f))
      ∧ (∀ h v : ℝ, highwayCombine h 1 v = h)
      ∧ (∀ h v : ℝ, highwayCombine h 0 v = v) := by
  refine ⟨rfl, fun h v => by simp [highwayCombine], fun h v => by
    simp [highwayCombine]⟩

/-- C10: in `normalize` with mode `"ln"` or `"ins"` and masking on, the
zero-sum mask multiplies the normalized tensor before the learned scale and
shift are applied, so a position whose raw input channels sum to exactly 0
outputs the shift parameter `beta` at every channel — which is exactly zero
precisely when `beta` is zero there, as it is at initialization. -/
theorem C10_mask_applied_before_scale_shift (inputs : Tensor3)
    (type : Option String) (epsilon : ℝ) (training : Bool)
    (gamma beta movMean movVar : ℕ → ℝ) (t : ℕ)
    (hty : type = some "ln" ∨ type = some "ins")
    (hsum : ∑ c ∈ Finset.range inputs.ch, inputs.val t c = 0) :
    (∀ c, (normalize inputs type epsilon training true gamma beta movMean
        movVar).val t c = beta c)
    ∧ ∀ c, ((normalize inputs type epsilon training true gamma beta movMean
        movVar).val t c = 0 ↔ beta c = 0) := by
  have h := normalize_masked_val_eq_beta inputs type epsilon training gamma
    beta movMean movVar t hty hsum
  exact ⟨h, fun c => by rw [h c]⟩

/-- Witness for C10: a 2-channel position with values (1, -1) sums to 0 and,
with `beta = 2`, the layer-normalized masked output there is 2. -/
theorem C10_mask_applied_before_scale_shift_witness :
    (normalize ⟨1, 2, fun _ c => if c = 0 then 1 else -1⟩ (some "ln") 1 true
        true (fun _ => 5) (fun _ => 2) (fun _ => 0) (fun _ => 1)).val 0 0
      = 2 :=
  (C10_mask_applied_before_scale_shift ⟨1, 2, fun _ c => if c = 0 then 1 else -1⟩
      (some "ln") 1 true (fun _ => 5) (fun _ => 2) (fun _ => 0) (fun _ => 1) 0
      (Or.inl rfl) (by simp [Finset.sum_range_succ])).1 0

/-- C3 counterexample: at a position whose input channels sum to exactly 0,
with masking on but shift parameter `beta = 1`, the layer-normalized output
value is 1, not 0 — the claim fails for nonzero `beta`. -/
theorem C3_masking_counterexample :
    (∑ c ∈ Finset.range (Tensor3.mk 1 2 (fun _ c => if c = 0 then 1 else -1)).ch,
        (Tensor3.mk 1 2 (fun _ c => if c = 0 then 1 else -1)).val 0 c) = 0
    ∧ (normalize ⟨1, 2, fun _ c => if c = 0 then 1 else -1⟩ (some "ln")
        (1 / 100000000) true true (fun _ => 1) (fun _ => 1) (fun _ => 0)
        (fun _ => 1)).val 0 0 = 1
    ∧ (1 : ℝ) ≠ 0 := by
  have hsum : (∑ c ∈ Finset.range
      (Tensor3.mk 1 2 (fun _ c => if c = 0 then (1 : ℝ) else -1)).ch,
      (Tensor3.mk 1 2 (fun _ c => if c = 0 then (1 : ℝ) else -1)).val 0 c)
      = 0 := by
    simp [Finset.sum_range_succ]
  exact ⟨hsum,
    normalize_masked_val_eq_beta _ (some "ln") (1 / 100000000) true
      (fun _ => 1) (fun _ => 1) (fun _ => 0) (fun _ => 1) 0 (Or.inl rfl)
      hsum 0,
    by norm_num⟩

/-- C3 (amended): with mode `"ln"` or `"ins"`, masking on, and the shift
parameter `beta` identically zero (its initialization value), every position
whose raw input channels sum to exactly 0 yields an exactly-zero output
vector, for every scale `gamma`. -/
theorem C3_masking_zero_with_beta_zero (inputs : Tensor3)
    (type : Option String) (epsilon : ℝ) (training : Bool)
    (gamma beta movMean movVar : ℕ → ℝ) (t : ℕ)
    (hty : type = some "ln" ∨ type = some "ins")
    (hsum : ∑ c ∈ Finset.range inputs.ch, inputs.val t c = 0)
    (hbeta : ∀ c, beta c = 0) :
    ∀ c, (normalize inputs type epsilon training true gamma beta movMean
        movVar).val t c = 0 := by
  intro c
  rw [normalize_masked_val_eq_beta inputs type epsilon training gamma beta
    movMean movVar t hty hsum c]
  exact hbeta c

/-- Witness for the amended C3: the same zero-sum position with `beta = 0`
gives output exactly 0. -/
theorem C3_masking_zero_with_beta_zero_witness :
    (normalize ⟨1, 2, fun _ c => if c = 0 then 1 else -1⟩ (some "ins") 1 true
        true (fun _ => 3) (fun _ => 0) (fun _ => 0) (fun _ => 1)).val 0 1
      = 0 :=
  C3_masking_zero_with_beta_zero ⟨1, 2, fun _ c => if c = 0 then 1 else -1⟩
    (some "ins") 1 true (fun _ => 3) (fun _ => 0) (fun _ => 0) (fun _ => 1) 0
    (Or.inr rfl) (by simp [Finset.sum_range_succ]) (fun _ => rfl) 1

/-- C4: for every input of time length `L`, kernel size `k ≥ 1`, dilation
rate `r ≥ 1`, `conv1d` with padding `"same"` or `"causal"` keeps the output
time length at `L`, while `"valid"` shrinks it to `L - (k-1)*r`. -/
theorem C4_conv1d_output_length (inputs : Tensor3) (filters : Option ℕ)
    (size rate : ℕ) (dropout_rate : ℝ) (use_bias : Bool)
    (norm_type : Option String) (activation_fn : Option (ℝ → ℝ))
    (training : Bool) (w : ℕ → ℕ → ℕ → ℝ) (bias : ℕ → ℝ)
    (gamma beta movMean movVar : ℕ → ℝ) (keep : ℕ → ℕ → Bool)
    (hsize : 1 ≤ size) (hrate : 1 ≤ rate) :
    (conv1d inputs filters size rate "same" dropout_rate use_bias norm_type
        activation_fn training w bias gamma beta movMean movVar keep).len
      = inputs.len
    ∧ (conv1d inputs filters size rate "causal" dropout_rate use_bias
        norm_type activation_fn training w bias gamma beta movMean movVar
        keep).len = inputs.len
    ∧ ((size - 1) * rate ≤ inputs.len →
        (conv1d inputs filters size rate "valid" dropout_rate use_bias
          norm_type activation_fn training w bias gamma beta movMean movVar
          keep).len = inputs.len - (size - 1) * rate) := by
  have hsame := eq_false (show ¬ pyLower "same" = "causal" by decide)
  have hsame2 := eq_true (show pyLower "same" = "same" by decide)
  have hcausal := eq_true (show pyLower "causal" = "causal" by decide)
  have hvalid1 := eq_false (show ¬ pyLower "valid" = "causal" by decide)
  have hvalid2 := eq_false (show ¬ pyLower "valid" = "same" by decide)
  refine ⟨?_, ?_, fun hle => ?_⟩
  · rw [conv1d_len_pipeline]
    simp only [hsame, if_false]
    unfold tfLayersConv1d convSame convValid padTime
    simp only [hsame2, if_true]
    show (size - 1) * rate / 2 + inputs.len
        + ((size - 1) * rate - (size - 1) * rate / 2) - (size - 1) * rate
      = inputs.len
    omega
  · rw [conv1d_len_pipeline]
    simp only [hcausal, if_true]
    unfold tfLayersConv1d convValid padTime
    simp only [hvalid2, if_false]
    show (size - 1) * rate + inputs.len + 0 - (size - 1) * rate = inputs.len
    omega
  · rw [conv1d_len_pipeline]
    simp only [hvalid1, hvalid2, if_false]
    rfl

/-- Witness for C4 at length 5, kernel size 3, rate 2: `"same"` and
`"causal"` give length 5 and `"valid"` gives length 1. -/
theorem C4_conv1d_output_length_witness :
    (1 ≤ 3 ∧ 1 ≤ 2 ∧ (3 - 1) * 2 ≤ 5)
    ∧ (conv1d ⟨5, 1, fun _ _ => 0⟩ none 3 2 "same" 0 true none none false
        (fun _ _ _ => 1) (fun _ => 0) (fun _ => 1) (fun _ => 0) (fun _ => 0)
        (fun _ => 1) (fun _ _ => true)).len = 5
    ∧ (conv1d ⟨5, 1, fun _ _ => 0⟩ none 3 2 "causal" 0 true none none false
        (fun _ _ _ => 1) (fun _ => 0) (fun _ => 1) (fun _ => 0) (fun _ => 0)
        (fun _ => 1) (fun _ _ => true)).len = 5
    ∧ (conv1d ⟨5, 1, fun _ _ => 0⟩ none 3 2 "valid" 0 true none none false
        (fun _ _ _ => 1) (fun _ => 0) (fun _ => 1) (fun _ => 0) (fun _ => 0)
        (fun _ => 1) (fun _ _ => true)).len = 5 - (3 - 1) * 2 := by
  have h := C4_conv1d_output_length ⟨5, 1, fun _ _ => 0⟩ none 3 2 0 true none
    none false (fun _ _ _ => 1) (fun _ => 0) (fun _ => 1) (fun _ => 0)
    (fun _ => 0) (fun _ => 1) (fun _ _ => true) (by norm_num) (by norm_num)
  exact ⟨⟨by norm_num, by norm_num, by norm_num⟩, h.1, h.2.1,
    h.2.2 (by norm_num)⟩

/-- C1: `conv1d` with causal padding is causal: for two inputs of the same
shape that agree at every time position up to `t` (on all channels), the
outputs agree at every position up to `t` (for all kernels, dilation rates,
biases, activations and dropout draws, with the default `norm_type = none`);
moreover the causal branch is exactly left-padding the time axis by
`(size-1)*rate` zeros followed by valid convolution. -/
theorem C1_conv1d_causal_causality (x y : Tensor3) (filters : Option ℕ)
    (size rate : ℕ) (dropout_rate : ℝ) (use_bias : Bool)
    (activation_fn : Option (ℝ → ℝ)) (training : Bool)
    (w : ℕ → ℕ → ℕ → ℝ) (bias : ℕ → ℝ) (gamma beta movMean movVar : ℕ → ℝ)
    (keep : ℕ → ℕ → Bool) (t : ℕ)
    (hlen : x.len = y.len) (hch : x.ch = y.ch)
    (heq : ∀ u ≤ t, ∀ c, x.val u c = y.val u c) :
    (∀ u ≤ t, ∀ f,
        (conv1d x filters size rate "causal" dropout_rate use_bias none
            activation_fn training w bias gamma beta movMean movVar
            keep).val u f
          = (conv1d y filters size rate "causal" dropout_rate use_bias none
              activation_fn training w bias gamma beta movMean movVar
              keep).val u f)
    ∧ conv1d x filters size rate "causal" dropout_rate use_bias none
          activation_fn training w bias gamma beta movMean movVar keep
        = conv1d (padTime ((size - 1) * rate) 0 x) filters size rate "valid"
            dropout_rate use_bias none activation_fn training w bias gamma
            beta movMean movVar keep := by
  constructor
  · intro u hu f
    rw [conv1d_causal_eq, conv1d_causal_eq]
    apply dropout_val_congr
    apply applyActivation_val_congr
    simp only [convValid, padTime]
    rw [hch, hlen]
    congr 1
    refine Finset.sum_congr rfl fun j hj => Finset.sum_congr rfl fun c _ => ?_
    have hjr : j * rate ≤ (size - 1) * rate := by
      refine Nat.mul_le_mul_right _ ?_
      simp only [Finset.mem_range] at hj
      omega
    congr 1
    split_ifs with h1 h2
    · rfl
    · refine heq _ ?_ c
      calc u + j * rate - (size - 1) * rate
          ≤ u + (size - 1) * rate - (size - 1) * rate :=
            Nat.sub_le_sub_right (Nat.add_le_add_left hjr u) _
        _ = u := by omega
        _ ≤ t := hu
    · rfl
  · rw [conv1d_causal_eq, conv1d_valid_eq]
    cases filters <;> rfl

/-- Witness for C1: two length-2 inputs that agree at time 0 and differ at
time 1 give the same causal-convolution output at time 0. -/
theorem C1_conv1d_causal_causality_witness :
    (conv1d ⟨2, 1, fun u _ => (u : ℝ)⟩ none 2 1 "causal" 0 true none none
        false (fun _ _ _ => 1) (fun _ => 0) (fun _ => 1) (fun _ => 0)
        (fun _ => 0) (fun _ => 1) (fun _ _ => true)).val 0 0
      = (conv1d ⟨2, 1, fun u _ => if u = 0 then 0 else 7⟩ none 2 1 "causal" 0
          true none none false (fun _ _ _ => 1) (fun _ => 0) (fun _ => 1)
          (fun _ => 0) (fun _ => 0) (fun _ => 1) (fun _ _ => true)).val 0 0 :=
  (C1_conv1d_causal_causality ⟨2, 1, fun u _ => (u : ℝ)⟩
      ⟨2, 1, fun u _ => if u = 0 then 0 else 7⟩ none 2 1 0 true none false
      (fun _ _ _ => 1) (fun _ => 0) (fun _ => 1) (fun _ => 0) (fun _ => 0)
      (fun _ => 1) (fun _ _ => true) 0 rfl rfl
      (fun u hu c => by
        interval_cases u
        simp)).1 0 le_rfl 0

/-- C5: `conv1d_transpose` with padding `"same"` (implemented by inserting a
singleton spatial dimension, transposed 2-D convolution with kernel
`(1, size)` and strides `(1, stride)`, and squeezing the singleton back out)
returns a tensor of time length `L * stride`; in particular `L = 10`,
`stride = 2` gives length 20. -/
theorem C5_conv1d_transpose_upsample_length (inputs : Tensor3)
    (filters : Option ℕ) (size stride : ℕ) (dropout_rate : ℝ)
    (norm_type : Option String) (activation : Option (ℝ → ℝ))
    (training use_bias : Bool) (w : ℕ → ℕ → ℕ → ℕ → ℝ) (bias : ℕ → ℝ)
    (gamma beta movMean movVar : ℕ → ℝ) (keep : ℕ → ℕ → Bool) :
    (conv1d_transpose inputs filters size stride "same" dropout_rate
        norm_type activation training use_bias w bias gamma beta movMean
        movVar keep).len = inputs.len * stride
    ∧ (conv1d_transpose ⟨10, 1, fun _ _ => 0⟩ none 3 2 "same" 0 none none
        false true (fun _ _ _ _ => 0) (fun _ => 0) (fun _ => 1) (fun _ => 0)
        (fun _ => 0) (fun _ => 1) (fun _ _ => true)).len = 20 := by
  refine ⟨conv1d_transpose_same_len inputs filters size stride dropout_rate
    norm_type activation training use_bias w bias gamma beta movMean movVar
    keep, ?_⟩
  rw [conv1d_transpose_same_len]
  norm_num

/-- C6: for `normalize` in mode `"ln"` with masking off, the output is the
learned scale/shift applied to the intermediate normalized tensor, and that
intermediate tensor has channel-axis mean exactly 0 and channel-axis
variance `v/(v+ε)` — within `ε/(v+ε)` of 1, the deviation due to the epsilon
added to the variance. -/
theorem C6_layer_norm_statistics (epsilon : ℝ) (x : Tensor3) (t : ℕ)
    (training : Bool) (gamma beta movMean movVar : ℕ → ℝ)
    (hch : 0 < x.ch) (heps : 0 < epsilon) :
    normalize x (some "ln") epsilon training false gamma beta movMean movVar
        = ⟨x.len, x.ch, fun u c =>
            gamma c * (lnNormalizedPre epsilon x).val u c + beta c⟩
      ∧ lnMean (lnNormalizedPre epsilon x) t = 0
      ∧ lnVar (lnNormalizedPre epsilon x) t
          = lnVar x t / (lnVar x t + epsilon)
      ∧ |lnVar (lnNormalizedPre epsilon x) t - 1|
          ≤ epsilon / (lnVar x t + epsilon) := by
  have hve : (0 : ℝ) < lnVar x t + epsilon := by
    have := lnVar_nonneg x t
    linarith
  have hvar := lnNormalizedPre_var epsilon x t hch heps
  have habs : |lnVar (lnNormalizedPre epsilon x) t - 1|
      = epsilon / (lnVar x t + epsilon) := by
    rw [hvar]
    have hrw : lnVar x t / (lnVar x t + epsilon) - 1
        = -(epsilon / (lnVar x t + epsilon)) := by
      field_simp
    rw [hrw, abs_neg, abs_of_nonneg (div_nonneg heps.le hve.le)]
  exact ⟨normalize_ln_no_masking x epsilon training gamma beta movMean movVar,
    lnNormalizedPre_mean epsilon x t hch, hvar, habs.le⟩

/-- Witness for C6 at a 2-channel position with values (0, 2) and
`epsilon = 1`: the normalized mean is 0 and the normalized variance is
`v/(v+1)` for `v` the raw variance. -/
theorem C6_layer_norm_statistics_witness :
    0 < (Tensor3.mk 1 2 (fun _ c => if c = 0 then 0 else 2)).ch
    ∧ (0 : ℝ) < 1
    ∧ lnMean (lnNormalizedPre 1 ⟨1, 2, fun _ c => if c = 0 then 0 else 2⟩) 0
        = 0
    ∧ lnVar (lnNormalizedPre 1 ⟨1, 2, fun _ c => if c = 0 then 0 else 2⟩) 0
        = lnVar ⟨1, 2, fun _ c => if c = 0 then 0 else 2⟩ 0
          / (lnVar ⟨1, 2, fun _ c => if c = 0 then 0 else 2⟩ 0 + 1) := by
  have h := C6_layer_norm_statistics 1
    ⟨1, 2, fun _ c => if c = 0 then 0 else 2⟩ 0 false (fun _ => 1)
    (fun _ => 0) (fun _ => 0) (fun _ => 1) (by decide) (by norm_num)
  exact ⟨by decide, by norm_num, h.2.1, h.2.2.1⟩

end DcTTS
